import Mathlib

/-!
# Task list front end (`web/app.js`)

A shallow embedding of the browser-side controller of the task list
application, followed by the properties established about it.

Modelling conventions.

* JavaScript strings are Lean `String`s; the built-in string methods used by
  the program (`startsWith`, `includes`, `trim`, `replace` with a character
  class) are defined on the character list of the string.
* JavaScript numbers that hold counts, offsets and ids are `Int`: the model
  covers integer values.  The view state is computed with exact arithmetic.
  On numbers sent by the service, `+` is exact while the sum stays within
  `±2^53` and is the rounding of the engine beyond; a number is printed as its
  decimal digits below `10^21` in magnitude and in the exponential form of the
  engine from there on.
* A request is recorded as its method, its path, the entries of its
  `URLSearchParams` and the fields of its JSON body; the serialisation of the
  last two to text is left to the browser.
* The handlers run one after the other: a `load()` that a handler starts
  without awaiting it is run to its end before the next event.
* The module-level `state` object, the DOM nodes the program reads or writes,
  the answers of the remote service still to come and the log of the requests
  issued so far are gathered in one `World` record that every handler
  transforms.  A handler that throws keeps the effects made before the throw.
-/

namespace TaskList

/-! ## Built-in string methods -/

/-- The method `String.prototype.startsWith`. -/
def startsWith (s p : String) : Bool :=
  p.data.isPrefixOf s.data

/-- Search of the list `p` as a contiguous block of a list. -/
def includesAux (p : List Char) : List Char → Bool
  | [] => p.isPrefixOf []
  | c :: cs => p.isPrefixOf (c :: cs) || includesAux p cs

/-- The method `String.prototype.includes`. -/
def includes (s p : String) : Bool :=
  includesAux p.data s.data

/-- The characters removed by `String.prototype.trim`: the ECMAScript
white space and line terminator code points. -/
def isTrimChar (c : Char) : Bool :=
  let n := c.toNat
  n = 0x09 || n = 0x0A || n = 0x0B || n = 0x0C || n = 0x0D || n = 0x20 ||
  n = 0xA0 || n = 0x1680 || (0x2000 ≤ n && n ≤ 0x200A) || n = 0x2028 ||
  n = 0x2029 || n = 0x202F || n = 0x205F || n = 0x3000 || n = 0xFEFF

/-- The method `String.prototype.trim`. -/
def trim (s : String) : String :=
  ⟨((s.data.dropWhile isTrimChar).reverse.dropWhile isTrimChar).reverse⟩

/-! ## Rendering helpers -/

/-- The function `badge(text, color)`. -/
def badge (text color : String) : String :=
  "<span class=\"inline-block text-xs px-2 py-0.5 rounded-full bg-" ++ color ++
    "-100 text-" ++ color ++ "-800\">" ++ text ++ "</span>"

/-- The callback mapped over `t.tags` in `renderItems`. -/
def tagBadge (x : String) : String :=
  if startsWith x "#" then badge x "violet"
  else if startsWith x "@" then badge x "amber"
  else if includes x "://" then badge "link" "emerald"
  else if includes x "@" then badge "email" "fuchsia"
  else badge x "sky"

/-- The replacement callback of `escapeHtml`: the table lookup on a matched
character. -/
def escapeChar (c : Char) : String :=
  if c = '&' then "&amp;"
  else if c = '<' then "&lt;"
  else if c = '>' then "&gt;"
  else if c = '"' then "&quot;"
  else if c = '\'' then "&#39;"
  else String.singleton c

/-- The function `escapeHtml(s)`: a global replace of every character of the
class `[&<>"']` by its table entry; the other characters are copied. -/
def escapeHtml (s : String) : String :=
  ⟨s.data.flatMap fun c => (escapeChar c).data⟩

/-- The character class `[&<>"']` matched by `escapeHtml`. -/
def specialChars : List Char := ['&', '<', '>', '"', '\'']

/-- The values of the replacement table of `escapeHtml`. -/
def entities : List String := ["&amp;", "&lt;", "&gt;", "&quot;", "&#39;"]

/-! ## Data model -/

/-- The module-level `state` object. -/
structure ViewState where
  limit : Int
  offset : Int
  status : String
  order_by : String
  order_dir : String
  deriving DecidableEq, Repr

/-- The initial value of `state`. -/
def initialState : ViewState :=
  { limit := 10, offset := 0, status := "", order_by := "created_at", order_dir := "desc" }

/-- A task record as sent by the service.  `tags` may be missing or null. -/
structure Task where
  id : Int
  text : String
  status : String
  tags : Option (List String)
  created_at : String
  deriving DecidableEq, Repr

/-- The `meta` object of a page: `{offset, limit, total}`. -/
structure PageMeta where
  offset : Int
  limit : Int
  total : Int
  deriving DecidableEq, Repr

/-- The HTTP methods the program uses. -/
inductive Method
  | GET | POST | PUT | DELETE
  deriving DecidableEq, Repr

/-- One call of `fetch`: method, path, the entries put in the
`URLSearchParams` (in order) and the fields of the stringified JSON body. -/
structure Request where
  method : Method
  path : String
  query : List (String × String)
  body : Option (List (String × String))
  deriving DecidableEq, Repr

/-- What `res.json()` yields: `null`, a task, a page `{items, meta}` (`meta`
possibly missing), or some other JSON value. -/
inductive Payload
  | null
  | task (t : Task)
  | page (items : List Task) (pageMeta : Option PageMeta)
  | other
  deriving DecidableEq, Repr

/-- The parts of a `fetch` response the program looks at.  `json` is `none`
when the body does not parse. -/
structure HttpResponse where
  status : Int
  statusText : String
  text : String
  json : Option Payload
  deriving DecidableEq, Repr

/-- The DOM nodes read or written by the program. -/
structure Dom where
  textInput : String
  statusInput : String
  createErrorText : String
  createErrorHidden : Bool
  listHtml : String
  metaText : String
  prevDisabled : Bool
  nextDisabled : Bool
  deriving DecidableEq, Repr

/-- The browser facilities the program calls and whose results it does not
control: the number of element children the parser builds from the markup of
`#list`, the answer of the user to `confirm`, the locale formatting of a
date, the rounding of an integer beyond `±2^53` to a double, and the
exponential form in which a number of magnitude `10^21` or more is printed. -/
structure Browser where
  childCount : String → Int
  confirm : String → Bool
  toLocaleString : String → String
  roundDouble : Int → Int
  exponential : Int → String

/-- Everything a handler can read or change.  `pending` holds the outcomes of
the next calls of `fetch`, in order (`none`: the call rejects); `log` holds the
requests issued so far, oldest first. -/
structure World where
  state : ViewState
  dom : Dom
  pending : List (Option HttpResponse)
  log : List Request
  deriving DecidableEq, Repr

/-- Result of an asynchronous function: normal completion or the message of the
error thrown, with the world as it is at that point. -/
abbrev Outcome (α : Type) := Except String α × World

/-! ## The program -/

/-- The property `res.ok`. -/
def HttpResponse.ok (res : HttpResponse) : Bool :=
  decide (200 ≤ res.status) && decide (res.status ≤ 299)

/-- The function `http(url, init)`. -/
def http (req : Request) (w : World) : Outcome Payload :=
  let w1 := { w with log := w.log ++ [req], pending := w.pending.tail }
  match w.pending with
  | [] => (.error "fetch failed", w1)
  | none :: _ => (.error "fetch failed", w1)
  | some res :: _ =>
    if !res.ok then
      (.error ("HTTP " ++ toString res.status ++ " " ++ res.statusText ++ ": " ++ res.text), w1)
    else if res.status = 204 then (.ok .null, w1)
    else
      match res.json with
      | none => (.error "SyntaxError", w1)
      | some p => (.ok p, w1)

/-- The conversion of a number to a string in a template literal: the decimal
digits of an integer of magnitude below `10^21`, the exponential form beyond. -/
def numberToString (br : Browser) (n : Int) : String :=
  if -1000000000000000000000 < n ∧ n < 1000000000000000000000 then toString n
  else br.exponential n

/-- The operator `+` on two numbers sent by the service: exact when the sum is
within `±2^53`, rounded to a double by the engine otherwise. -/
def jsAdd (br : Browser) (a b : Int) : Int :=
  if -9007199254740992 ≤ a + b ∧ a + b ≤ 9007199254740992 then a + b
  else br.roundDouble (a + b)

/-- The markup of one task in `renderItems`. -/
def renderItem (br : Browser) (t : Task) : String :=
  let dim := if t.status = "done" then "line-through text-slate-500" else ""
  let tags := " ".intercalate ((t.tags.getD []).map tagBadge)
  "\n      <li class=\"bg-white rounded-2xl shadow p-4 flex items-start gap-3\">" ++
  "\n        <button data-action=\"toggle\" data-id=\"" ++ numberToString br t.id ++ "\"" ++
  "\n          class=\"mt-0.5 p-2 rounded-lg border border-slate-300 hover:bg-slate-100\"" ++
  "\n          title=\"Cambiar estado\">" ++
  "\n          " ++ (if t.status = "done" then "✅" else "⬜️") ++
  "\n        </button>" ++
  "\n        <div class=\"flex-1\">" ++
  "\n          <div class=\"flex items-center gap-2\">" ++
  "\n            <span class=\"text-sm text-slate-400\">#" ++ numberToString br t.id ++ "</span>" ++
  "\n            <span class=\"" ++ dim ++ " font-medium\">" ++ escapeHtml t.text ++ "</span>" ++
  "\n          </div>" ++
  "\n          <div class=\"mt-1 space-x-1\">" ++ tags ++ "</div>" ++
  "\n          <div class=\"mt-1 text-xs text-slate-400\">" ++
  "\n            " ++ br.toLocaleString t.created_at ++ " · " ++ t.status ++
  "\n          </div>" ++
  "\n        </div>" ++
  "\n        <div class=\"flex items-center gap-2\">" ++
  "\n          <button data-action=\"delete\" data-id=\"" ++ numberToString br t.id ++ "\"" ++
  "\n            class=\"px-3 py-1 rounded-lg border border-rose-300 text-rose-700 hover:bg-rose-50\">" ++
  "\n            Eliminar" ++
  "\n          </button>" ++
  "\n        </div>" ++
  "\n      </li>"

/-- The function `renderItems(items, meta)`. -/
def renderItems (br : Browser) (items : List Task) (pageMeta : Option PageMeta)
    (d : Dom) : Dom :=
  { d with
    listHtml := "".intercalate (items.map (renderItem br))
    metaText :=
      match pageMeta with
      | some m =>
        numberToString br (jsAdd br m.offset 1) ++ "-" ++
          numberToString br (min (jsAdd br m.offset m.limit) m.total) ++
          " / " ++ numberToString br m.total
      | none => ""
    prevDisabled :=
      match pageMeta with
      | some m => decide (m.offset ≤ 0)
      | none => true
    nextDisabled :=
      match pageMeta with
      | some m => decide (jsAdd br m.offset m.limit ≥ m.total)
      | none => true }

/-- The entries `load` puts in its `URLSearchParams`. -/
def loadQuery (st : ViewState) : List (String × String) :=
  [("limit", toString st.limit), ("offset", toString st.offset)] ++
  (if st.status ≠ "" then [("status", st.status)] else []) ++
  [("order_by", st.order_by), ("order_dir", st.order_dir)]

/-- The request `load` issues for a view state. -/
def loadRequest (st : ViewState) : Request :=
  { method := .GET, path := "/tasks", query := loadQuery st, body := none }

/-- The function `load()`.  A response without `items` makes `renderItems`
throw before it writes anything. -/
def load (br : Browser) (w : World) : Outcome Unit :=
  match http (loadRequest w.state) w with
  | (.error e, w1) => (.error e, w1)
  | (.ok (.page items pageMeta), w1) =>
    (.ok (), { w1 with dom := renderItems br items pageMeta w1.dom })
  | (.ok _, w1) => (.error "TypeError", w1)

/-- The request `onCreate` issues for a trimmed text and a status. -/
def createRequest (text status : String) : Request :=
  { method := .POST, path := "/tasks", query := [],
    body := some [("text", text), ("status", status)] }

/-- The function `onCreate(e)`. -/
def onCreate (br : Browser) (w : World) : Outcome Unit :=
  let text := trim w.dom.textInput
  let status := w.dom.statusInput
  let w0 := { w with dom := { w.dom with createErrorHidden := true } }
  if text = "" then
    (.ok (), { w0 with dom := { w0.dom with
      createErrorText := "El texto es obligatorio.", createErrorHidden := false } })
  else
    match http (createRequest text status) w0 with
    | (.error e, w1) => (.error e, w1)
    | (.ok _, w1) =>
      load br { w1 with
        dom := { w1.dom with textInput := "", statusInput := "pending" }
        state := { w1.state with offset := 0 } }

/-- The button found by `e.target.closest("button[data-action]")`, with its
`data-action` and the number read from its `data-id`. -/
structure Button where
  action : String
  id : Int
  deriving DecidableEq, Repr

/-- The path of one task. -/
def taskPath (br : Browser) (id : Int) : String := "/tasks/" ++ numberToString br id

/-- The `status` property of a fetched value (`undefined` is `none`). -/
def payloadStatus : Payload → Option String
  | .task t => some t.status
  | _ => none

/-- The branch `action === "toggle"` of `onListClick`. -/
def toggle (br : Browser) (id : Int) (w : World) : Outcome Unit :=
  match http { method := .GET, path := taskPath br id, query := [], body := none } w with
  | (.error e, w1) => (.error e, w1)
  | (.ok .null, w1) => (.error "TypeError", w1)
  | (.ok t, w1) =>
    let next := if payloadStatus t = some "pending" then "done" else "pending"
    match http { method := .PUT, path := taskPath br id, query := [],
                 body := some [("status", next)] } w1 with
    | (.error e, w2) => (.error e, w2)
    | (.ok _, w2) => load br w2

/-- The branch `action === "delete"` of `onListClick`. -/
def delete (br : Browser) (id : Int) (w : World) : Outcome Unit :=
  if !br.confirm ("¿Eliminar la tarea #" ++ numberToString br id ++ "?") then (.ok (), w)
  else
    match http { method := .DELETE, path := taskPath br id, query := [], body := none } w with
    | (.error e, w1) => (.error e, w1)
    | (.ok _, w1) =>
      let w2 :=
        if w1.state.offset > 0 ∧ br.childCount w1.dom.listHtml = 1 then
          { w1 with state := { w1.state with
              offset := max 0 (w1.state.offset - w1.state.limit) } }
        else w1
      load br w2

/-- The function `onListClick(e)`; `btn` is the button the click landed in, if
any. -/
def onListClick (br : Browser) (btn : Option Button) (w : World) : Outcome Unit :=
  match btn with
  | none => (.ok (), w)
  | some b =>
    match (if b.action = "toggle" then toggle br b.id w else (.ok (), w)) with
    | (.error e, w1) => (.error e, w1)
    | (.ok _, w1) => if b.action = "delete" then delete br b.id w1 else (.ok (), w1)

/-- The click handler of `#prev-btn`. -/
def pagePrev (br : Browser) (w : World) : Outcome Unit :=
  load br { w with state := { w.state with offset := max 0 (w.state.offset - w.state.limit) } }

/-- The click handler of `#next-btn`. -/
def pageNext (br : Browser) (w : World) : Outcome Unit :=
  load br { w with state := { w.state with offset := w.state.offset + w.state.limit } }

/-- The change handler of `#status-filter`. -/
def setFilter (br : Browser) (value : String) (w : World) : Outcome Unit :=
  load br { w with state := { w.state with status := value, offset := 0 } }

/-- The change handler of `#order-by`. -/
def setOrderBy (br : Browser) (value : String) (w : World) : Outcome Unit :=
  load br { w with state := { w.state with order_by := value, offset := 0 } }

/-- The change handler of `#order-dir`. -/
def setOrderDir (br : Browser) (value : String) (w : World) : Outcome Unit :=
  load br { w with state := { w.state with order_dir := value, offset := 0 } }

/-! ## User actions and reachable view states -/

/-- The events the program listens to. -/
inductive Action
  | pagePrev
  | pageNext
  | setFilter (value : String)
  | setOrderBy (value : String)
  | setOrderDir (value : String)
  | create
  | listClick (btn : Option Button)

/-- The handler `bindUI` registers for an event. -/
def Action.run (br : Browser) : Action → World → Outcome Unit
  | .pagePrev => TaskList.pagePrev br
  | .pageNext => TaskList.pageNext br
  | .setFilter v => TaskList.setFilter br v
  | .setOrderBy v => TaskList.setOrderBy br v
  | .setOrderDir v => TaskList.setOrderDir br v
  | .create => onCreate br
  | .listClick btn => onListClick br btn

/-- The view states the program can be in: the initial one, and the one a
handler leaves when it runs from a reachable view state, whatever the browser,
the form fields, the rendered list and the answers of the service are. -/
inductive Reachable : ViewState → Prop
  | init : Reachable initialState
  | step (br : Browser) (a : Action) (w : World) :
      Reachable w.state → Reachable (a.run br w).2.state

/-! ## Vocabulary of the statements -/

/-- A response for which `http` returns a value: a 2xx status and, unless the
status is 204, a body that parses as JSON. -/
def HttpResponse.succeeds (res : HttpResponse) : Bool :=
  res.ok && (decide (res.status = 204) || res.json.isSome)

/-- The request that fetches one task. -/
def fetchRequest (br : Browser) (id : Int) : Request :=
  { method := .GET, path := taskPath br id, query := [], body := none }

/-- The request that sets the status of one task. -/
def updateRequest (br : Browser) (id : Int) (status : String) : Request :=
  { method := .PUT, path := taskPath br id, query := [], body := some [("status", status)] }

/-- The request that deletes one task. -/
def deleteRequest (br : Browser) (id : Int) : Request :=
  { method := .DELETE, path := taskPath br id, query := [], body := none }

/-- The question `onListClick` asks before deleting. -/
def confirmMessage (br : Browser) (id : Int) : String :=
  "¿Eliminar la tarea #" ++ numberToString br id ++ "?"

/-! ## Sample values -/

/-- The number of `<li>` start tags in a text. -/
def countListItemTags : List Char → Int
  | [] => 0
  | c :: cs =>
    (if "<li>".data.isPrefixOf (c :: cs) || "<li ".data.isPrefixOf (c :: cs) then 1 else 0) +
      countListItemTags cs

/-- The number of element children the HTML parser gives `#list` for a markup
that opens no nested list: an `<li>` start tag met while a list item is open
closes that item and starts the next child, so the children are as many as the
`<li>` start tags. -/
def listChildren (markup : String) : Int :=
  countListItemTags markup.data

/-- A browser whose user accepts every confirmation. -/
def acceptingBrowser : Browser :=
  { childCount := listChildren, confirm := fun _ => true, toLocaleString := fun t => t,
    roundDouble := fun n => n, exponential := fun n => toString n }

/-- A browser whose user declines every confirmation. -/
def decliningBrowser : Browser :=
  { childCount := listChildren, confirm := fun _ => false, toLocaleString := fun t => t,
    roundDouble := fun n => n, exponential := fun n => toString n }

/-- The page as first served: empty form, status selector on `pending`, error
line hidden, nothing rendered. -/
def blankDom : Dom :=
  { textInput := "", statusInput := "pending", createErrorText := "",
    createErrorHidden := true, listHtml := "", metaText := "",
    prevDisabled := false, nextDisabled := false }

/-- The initial state with the given form fields and service answers. -/
def sampleWorld (text : String) (answers : List (Option HttpResponse)) : World :=
  { state := initialState
    dom := { blankDom with textInput := text }
    pending := answers
    log := [] }

/-- A successful answer to a creation request. -/
def createdResponse : HttpResponse :=
  { status := 201, statusText := "Created", text := "",
    json := some (.task ⟨1, "a", "pending", none, "2024-01-01"⟩) }

/-- A successful answer to a page request, with no items. -/
def emptyPageResponse : HttpResponse :=
  { status := 200, statusText := "OK", text := "", json := some (.page [] none) }

/-- A successful answer carrying the task with the given id and status. -/
def taskResponse (id : Int) (status : String) : HttpResponse :=
  { status := 200, statusText := "OK", text := "",
    json := some (.task ⟨id, "a", status, none, "2024-01-01"⟩) }

/-- The answer `204 No Content`. -/
def noContentResponse : HttpResponse :=
  { status := 204, statusText := "No Content", text := "", json := none }

/-- A failure answer. -/
def serverErrorResponse : HttpResponse :=
  { status := 500, statusText := "Internal Server Error", text := "boom", json := none }

/-- A world with the given limit and offset and service answers. -/
def pagedWorld (limit offset : Int) (answers : List (Option HttpResponse)) : World :=
  { state := { initialState with limit := limit, offset := offset }
    dom := blankDom
    pending := answers
    log := [] }

/-- The task with id 3 and one tag. -/
def taggedTask (tag : String) : Task :=
  { id := 3, text := "a", status := "pending", tags := some [tag],
    created_at := "2024-01-01" }

/-- The answer to the request of the second page when the list holds eleven
tasks and the last one is `t`. -/
def lastPageResponse (t : Task) : HttpResponse :=
  { status := 200, statusText := "OK", text := "",
    json := some (.page [t] (some ⟨10, 10, 11⟩)) }

/-- The world after the second page, which holds the single task with the given
tag, has been loaded and rendered; the service will answer the next two
requests with 204 and with an empty page. -/
def lastPageWorld (tag : String) : World :=
  (load acceptingBrowser
    (pagedWorld 10 10 [some (lastPageResponse (taggedTask tag)), some noContentResponse,
      some emptyPageResponse])).2

/-! ## Facts about the string methods -/

theorem startsWith_single (x : String) (c : Char) :
    startsWith x (String.singleton c) = true ↔ x.data.head? = some c := by
  unfold startsWith
  have h : (String.singleton c).data = [c] := rfl
  rw [h]
  cases x.data with
  | nil => simp [List.isPrefixOf]
  | cons a l =>
    simp only [List.isPrefixOf, Bool.and_true, beq_iff_eq, List.head?_cons, Option.some.injEq]
    exact eq_comm

theorem includesAux_iff (p l : List Char) :
    includesAux p l = true ↔ ∃ a b, l = a ++ p ++ b := by
  have key : includesAux p l = true ↔ p <:+: l := by
    induction l with
    | nil => simp [includesAux, List.isPrefixOf_iff_prefix]
    | cons c cs ih =>
      simp only [includesAux, Bool.or_eq_true, ih, List.isPrefixOf_iff_prefix]
      exact List.infix_cons_iff.symm
  rw [key]
  constructor
  · rintro ⟨a, b, h⟩
    exact ⟨a, b, h.symm⟩
  · rintro ⟨a, b, h⟩
    exact ⟨a, b, h.symm⟩

theorem includes_iff (x p : String) :
    includes x p = true ↔ ∃ a b, x.data = a ++ p.data ++ b :=
  includesAux_iff p.data x.data

theorem includes_single (x : String) (c : Char) :
    includes x (String.singleton c) = true ↔ c ∈ x.data := by
  rw [includes_iff]
  have h : (String.singleton c).data = [c] := rfl
  rw [h]
  constructor
  · rintro ⟨a, b, hab⟩
    rw [hab]
    simp
  · intro hc
    obtain ⟨a, b, hab⟩ := List.append_of_mem hc
    exact ⟨a, b, by rw [hab]; simp⟩

/-! ## Tag badges -/

theorem badge_colour (text : String) :
    badge text "violet" =
      "<span class=\"inline-block text-xs px-2 py-0.5 rounded-full bg-violet-100 text-violet-800\">" ++ text ++ "</span>" ∧
    badge text "amber" =
      "<span class=\"inline-block text-xs px-2 py-0.5 rounded-full bg-amber-100 text-amber-800\">" ++ text ++ "</span>" ∧
    badge text "emerald" =
      "<span class=\"inline-block text-xs px-2 py-0.5 rounded-full bg-emerald-100 text-emerald-800\">" ++ text ++ "</span>" ∧
    badge text "fuchsia" =
      "<span class=\"inline-block text-xs px-2 py-0.5 rounded-full bg-fuchsia-100 text-fuchsia-800\">" ++ text ++ "</span>" ∧
    badge text "sky" =
      "<span class=\"inline-block text-xs px-2 py-0.5 rounded-full bg-sky-100 text-sky-800\">" ++ text ++ "</span>" := by
  have hv : "<span class=\"inline-block text-xs px-2 py-0.5 rounded-full bg-" ++ "violet" ++
      "-100 text-" ++ "violet" ++ "-800\">" =
      "<span class=\"inline-block text-xs px-2 py-0.5 rounded-full bg-violet-100 text-violet-800\">" := by
    decide
  have ha : "<span class=\"inline-block text-xs px-2 py-0.5 rounded-full bg-" ++ "amber" ++
      "-100 text-" ++ "amber" ++ "-800\">" =
      "<span class=\"inline-block text-xs px-2 py-0.5 rounded-full bg-amber-100 text-amber-800\">" := by
    decide
  have he : "<span class=\"inline-block text-xs px-2 py-0.5 rounded-full bg-" ++ "emerald" ++
      "-100 text-" ++ "emerald" ++ "-800\">" =
      "<span class=\"inline-block text-xs px-2 py-0.5 rounded-full bg-emerald-100 text-emerald-800\">" := by
    decide
  have hf : "<span class=\"inline-block text-xs px-2 py-0.5 rounded-full bg-" ++ "fuchsia" ++
      "-100 text-" ++ "fuchsia" ++ "-800\">" =
      "<span class=\"inline-block text-xs px-2 py-0.5 rounded-full bg-fuchsia-100 text-fuchsia-800\">" := by
    decide
  have hs : "<span class=\"inline-block text-xs px-2 py-0.5 rounded-full bg-" ++ "sky" ++
      "-100 text-" ++ "sky" ++ "-800\">" =
      "<span class=\"inline-block text-xs px-2 py-0.5 rounded-full bg-sky-100 text-sky-800\">" := by
    decide
  unfold badge
  rw [hv, ha, he, hf, hs]
  exact ⟨rfl, rfl, rfl, rfl, rfl⟩

/-- C1: the badge of a tag `x` is decided by the first matching rule: a leading
`#` gives the violet badge showing `x`; else a leading `@` gives the amber badge
showing `x`; else an occurrence of `://` gives the emerald badge showing `link`;
else an occurrence of `@` gives the fuchsia badge showing `email`; otherwise the
sky badge shows `x`.  The five sample tags fall in the five categories. -/
theorem tagBadge_first_matching_rule (x : String) :
    (x.data.head? = some '#' → tagBadge x =
      "<span class=\"inline-block text-xs px-2 py-0.5 rounded-full bg-violet-100 text-violet-800\">" ++ x ++ "</span>") ∧
    (x.data.head? ≠ some '#' → x.data.head? = some '@' → tagBadge x =
      "<span class=\"inline-block text-xs px-2 py-0.5 rounded-full bg-amber-100 text-amber-800\">" ++ x ++ "</span>") ∧
    (x.data.head? ≠ some '#' → x.data.head? ≠ some '@' →
      (∃ a b, x.data = a ++ [':', '/', '/'] ++ b) → tagBadge x =
      "<span class=\"inline-block text-xs px-2 py-0.5 rounded-full bg-emerald-100 text-emerald-800\">" ++ "link" ++ "</span>") ∧
    (x.data.head? ≠ some '#' → x.data.head? ≠ some '@' →
      (¬ ∃ a b, x.data = a ++ [':', '/', '/'] ++ b) → '@' ∈ x.data → tagBadge x =
      "<span class=\"inline-block text-xs px-2 py-0.5 rounded-full bg-fuchsia-100 text-fuchsia-800\">" ++ "email" ++ "</span>") ∧
    (x.data.head? ≠ some '#' → x.data.head? ≠ some '@' →
      (¬ ∃ a b, x.data = a ++ [':', '/', '/'] ++ b) → '@' ∉ x.data → tagBadge x =
      "<span class=\"inline-block text-xs px-2 py-0.5 rounded-full bg-sky-100 text-sky-800\">" ++ x ++ "</span>") ∧
    tagBadge "#work" =
      "<span class=\"inline-block text-xs px-2 py-0.5 rounded-full bg-violet-100 text-violet-800\">#work</span>" ∧
    tagBadge "@alice" =
      "<span class=\"inline-block text-xs px-2 py-0.5 rounded-full bg-amber-100 text-amber-800\">@alice</span>" ∧
    tagBadge "https://x.com" =
      "<span class=\"inline-block text-xs px-2 py-0.5 rounded-full bg-emerald-100 text-emerald-800\">link</span>" ∧
    tagBadge "a@b.com" =
      "<span class=\"inline-block text-xs px-2 py-0.5 rounded-full bg-fuchsia-100 text-fuchsia-800\">email</span>" ∧
    tagBadge "misc" =
      "<span class=\"inline-block text-xs px-2 py-0.5 rounded-full bg-sky-100 text-sky-800\">misc</span>" := by
  have hs : ∀ c : Char, startsWith x (String.singleton c) = true ↔ x.data.head? = some c :=
    startsWith_single x
  have hi := includes_iff x "://"
  have hd : ("://" : String).data = [':', '/', '/'] := rfl
  rw [hd] at hi
  have he := includes_single x '@'
  have e1 : String.singleton '#' = "#" := rfl
  have e2 : String.singleton '@' = "@" := rfl
  have h1 := hs '#'
  have h2 := hs '@'
  rw [e1] at h1
  rw [e2] at h2 he
  obtain ⟨bv, ba, _, _, bs⟩ := badge_colour x
  obtain ⟨_, _, be, _, _⟩ := badge_colour "link"
  obtain ⟨_, _, _, bf, _⟩ := badge_colour "email"
  refine ⟨?_, ?_, ?_, ?_, ?_, by decide, by decide, by decide, by decide, by decide⟩
  · intro a
    rw [← bv]
    simp [tagBadge, h1.2 a]
  · intro a b
    have na : ¬ startsWith x "#" = true := fun h => a (h1.1 h)
    rw [← ba]
    simp [tagBadge, na, h2.2 b]
  · intro a b c
    have na : ¬ startsWith x "#" = true := fun h => a (h1.1 h)
    have nb : ¬ startsWith x "@" = true := fun h => b (h2.1 h)
    rw [← be]
    simp [tagBadge, na, nb, hi.2 c]
  · intro a b c d
    have na : ¬ startsWith x "#" = true := fun h => a (h1.1 h)
    have nb : ¬ startsWith x "@" = true := fun h => b (h2.1 h)
    have nc : ¬ includes x "://" = true := fun h => c (hi.1 h)
    rw [← bf]
    simp [tagBadge, na, nb, nc, he.2 d]
  · intro a b c d
    have na : ¬ startsWith x "#" = true := fun h => a (h1.1 h)
    have nb : ¬ startsWith x "@" = true := fun h => b (h2.1 h)
    have nc : ¬ includes x "://" = true := fun h => c (hi.1 h)
    have nd : ¬ includes x "@" = true := fun h => d (he.1 h)
    rw [← bs]
    simp [tagBadge, na, nb, nc, nd]

theorem tagBadge_first_matching_rule_witness :
    ("ftp://host/@x" : String).data.head? ≠ some '#' ∧
    ("ftp://host/@x" : String).data.head? ≠ some '@' ∧
    (∃ a b, ("ftp://host/@x" : String).data = a ++ [':', '/', '/'] ++ b) ∧
    tagBadge "ftp://host/@x" =
      "<span class=\"inline-block text-xs px-2 py-0.5 rounded-full bg-emerald-100 text-emerald-800\">" ++ "link" ++ "</span>" :=
  ⟨by decide, by decide, ⟨"ftp".data, "host/@x".data, by decide⟩,
    (tagBadge_first_matching_rule "ftp://host/@x").2.2.1 (by decide) (by decide)
      ⟨"ftp".data, "host/@x".data, by decide⟩⟩

/-! ## Pagination label and controls -/

theorem numberToString_digits (br : Browser) (n : Int)
    (h : -1000000000000000000000 < n ∧ n < 1000000000000000000000) :
    numberToString br n = toString n := by
  unfold numberToString
  rw [if_pos h]

theorem jsAdd_exact (br : Browser) (a b : Int)
    (h : -9007199254740992 ≤ a + b ∧ a + b ≤ 9007199254740992) :
    jsAdd br a b = a + b := by
  unfold jsAdd
  rw [if_pos h]

/-- C2 (counterexample): with metadata offset 0, limit 0, total 5 the offset is
below the total, the label reads `1-0 / 5`, and its first number exceeds its
second; with metadata offset -5, limit 10, total 25 the offset is below the
total, the label reads `-4-5 / 25`, and its first number is not a position
counted from 1. -/
theorem renderItems_label_not_positions :
    (renderItems acceptingBrowser [] (some ⟨0, 0, 5⟩) blankDom).metaText = "1-0 / 5" ∧
    (⟨0, 0, 5⟩ : PageMeta).offset < (⟨0, 0, 5⟩ : PageMeta).total ∧
    ¬ ((⟨0, 0, 5⟩ : PageMeta).offset + 1 ≤
        min ((⟨0, 0, 5⟩ : PageMeta).offset + (⟨0, 0, 5⟩ : PageMeta).limit)
          (⟨0, 0, 5⟩ : PageMeta).total) ∧
    (renderItems acceptingBrowser [] (some ⟨-5, 10, 25⟩) blankDom).metaText = "-4-5 / 25" ∧
    (⟨-5, 10, 25⟩ : PageMeta).offset < (⟨-5, 10, 25⟩ : PageMeta).total ∧
    ¬ (1 ≤ (⟨-5, 10, 25⟩ : PageMeta).offset + 1) := by
  decide

/-- C2 (amended): for every page metadata of integers with `offset + 1`,
`offset + limit` and `total` within `±2^53`, the label is
`<offset+1>-<min(offset+limit, total)> / <total>`, prev is disabled exactly when
`offset ≤ 0` and next exactly when `offset + limit ≥ total`; whenever moreover
`0 ≤ offset < total` and `limit ≥ 1`, the two numbers are the positions, counted
from 1, of the first and last item of the page: `1 ≤ first ≤ last ≤ total` and
the page spans `min(limit, total - offset)` positions.  For total 25, limit 10,
offset 10 the label is `11-20 / 25` and both controls are enabled. -/
theorem renderItems_pagination (br : Browser) (items : List Task) (m : PageMeta) (d : Dom)
    (h1 : -9007199254740992 ≤ m.offset + 1 ∧ m.offset + 1 ≤ 9007199254740992)
    (h2 : -9007199254740992 ≤ m.offset + m.limit ∧ m.offset + m.limit ≤ 9007199254740992)
    (h3 : -9007199254740992 ≤ m.total ∧ m.total ≤ 9007199254740992) :
    (renderItems br items (some m) d).metaText =
      toString (m.offset + 1) ++ "-" ++ toString (min (m.offset + m.limit) m.total) ++
        " / " ++ toString m.total ∧
    ((renderItems br items (some m) d).prevDisabled = true ↔ m.offset ≤ 0) ∧
    ((renderItems br items (some m) d).nextDisabled = true ↔ m.offset + m.limit ≥ m.total) ∧
    (0 ≤ m.offset → m.offset < m.total → 1 ≤ m.limit →
      1 ≤ m.offset + 1 ∧
      m.offset + 1 ≤ min (m.offset + m.limit) m.total ∧
      min (m.offset + m.limit) m.total ≤ m.total ∧
      min (m.offset + m.limit) m.total - (m.offset + 1) + 1 = min m.limit (m.total - m.offset)) ∧
    (renderItems br items (some ⟨10, 10, 25⟩) d).metaText = "11-20 / 25" ∧
    (renderItems br items (some ⟨10, 10, 25⟩) d).prevDisabled = false ∧
    (renderItems br items (some ⟨10, 10, 25⟩) d).nextDisabled = false := by
  have hmin : -9007199254740992 ≤ min (m.offset + m.limit) m.total ∧
      min (m.offset + m.limit) m.total ≤ 9007199254740992 := by
    rcases le_total (m.offset + m.limit) m.total with h | h
    · rw [min_eq_left h]; exact h2
    · rw [min_eq_right h]; exact h3
  have e1 : (10 : Int) + 1 = 11 := by decide
  have e2 : (10 : Int) + 10 = 20 := by decide
  have e3 : min (20 : Int) 25 = 20 := by decide
  refine ⟨?_, ?_, ?_, ?_, ?_, ?_, ?_⟩
  · simp only [renderItems]
    rw [jsAdd_exact br _ _ h1, jsAdd_exact br _ _ h2,
      numberToString_digits br _ (by omega), numberToString_digits br _ (by omega),
      numberToString_digits br _ (by omega)]
  · simp [renderItems]
  · simp only [renderItems]
    rw [jsAdd_exact br _ _ h2]
    simp
  · intro h0 hlt hl
    refine ⟨by omega, le_min (by omega) (by omega), min_le_right _ _, ?_⟩
    rcases le_total (m.offset + m.limit) m.total with h | h
    · rw [min_eq_left h, min_eq_left (by omega)]
      omega
    · rw [min_eq_right h, min_eq_right (by omega)]
      omega
  · simp only [renderItems]
    rw [jsAdd_exact br _ _ (by decide), jsAdd_exact br _ _ (by decide), e1, e2, e3,
      numberToString_digits br _ (by decide), numberToString_digits br _ (by decide),
      numberToString_digits br _ (by decide)]
    decide
  · simp [renderItems]
  · simp only [renderItems]
    rw [jsAdd_exact br _ _ (by decide)]
    decide

theorem renderItems_pagination_witness :
    (renderItems acceptingBrowser [] (some ⟨20, 10, 25⟩) blankDom).metaText = "21-25 / 25" ∧
    (1 : Int) ≤ (⟨20, 10, 25⟩ : PageMeta).offset + 1 ∧
    (⟨20, 10, 25⟩ : PageMeta).offset + 1 ≤
      min ((⟨20, 10, 25⟩ : PageMeta).offset + (⟨20, 10, 25⟩ : PageMeta).limit)
        (⟨20, 10, 25⟩ : PageMeta).total :=
  ⟨(renderItems_pagination acceptingBrowser [] ⟨20, 10, 25⟩ blankDom
      (by decide) (by decide) (by decide)).1,
    ((renderItems_pagination acceptingBrowser [] ⟨20, 10, 25⟩ blankDom
      (by decide) (by decide) (by decide)).2.2.2.1 (by decide) (by decide) (by decide)).1,
    ((renderItems_pagination acceptingBrowser [] ⟨20, 10, 25⟩ blankDom
      (by decide) (by decide) (by decide)).2.2.2.1 (by decide) (by decide) (by decide)).2.1⟩

/-! ## Effects of `http` and `load` -/

theorem http_world (req : Request) (w : World) :
    (http req w).2 = { w with log := w.log ++ [req], pending := w.pending.tail } := by
  unfold http
  split
  · rfl
  · rfl
  · split
    · rfl
    · split
      · rfl
      · split <;> rfl

theorem load_state (br : Browser) (w : World) : (load br w).2.state = w.state := by
  have h := http_world (loadRequest w.state) w
  unfold load
  split
  · next e w1 heq => rw [heq] at h; simp only at h; rw [h]
  · next items pm w1 heq => rw [heq] at h; simp only at h; rw [h]
  · next r w1 _ heq => rw [heq] at h; simp only at h; rw [h]

theorem load_log (br : Browser) (w : World) :
    (load br w).2.log = w.log ++ [loadRequest w.state] := by
  have h := http_world (loadRequest w.state) w
  unfold load
  split
  · next e w1 heq => rw [heq] at h; simp only at h; rw [h]
  · next items pm w1 heq => rw [heq] at h; simp only at h; rw [h]
  · next r w1 _ heq => rw [heq] at h; simp only at h; rw [h]

theorem load_textInput (br : Browser) (w : World) :
    (load br w).2.dom.textInput = w.dom.textInput := by
  have h := http_world (loadRequest w.state) w
  unfold load
  split
  · next e w1 heq => rw [heq] at h; simp only at h; rw [h]
  · next items pm w1 heq => rw [heq] at h; simp only at h; rw [h]; rfl
  · next r w1 _ heq => rw [heq] at h; simp only at h; rw [h]

/-! ## Paging -/

/-- C4: for every view state `pagePrev` sets the offset to
`max(0, offset - limit)`, hence never below 0, and `pageNext` sets it to
`offset + limit` whatever the service reports; both keep limit, status,
order_by and order_dir, and each reloads once with the new state. -/
theorem pagePrev_pageNext_offset (br : Browser) (w : World) :
    (pagePrev br w).2.state =
      { w.state with offset := max 0 (w.state.offset - w.state.limit) } ∧
    0 ≤ (pagePrev br w).2.state.offset ∧
    (pageNext br w).2.state = { w.state with offset := w.state.offset + w.state.limit } ∧
    (pagePrev br w).2.state.limit = w.state.limit ∧
    (pagePrev br w).2.state.status = w.state.status ∧
    (pagePrev br w).2.state.order_by = w.state.order_by ∧
    (pagePrev br w).2.state.order_dir = w.state.order_dir ∧
    (pageNext br w).2.state.limit = w.state.limit ∧
    (pageNext br w).2.state.status = w.state.status ∧
    (pageNext br w).2.state.order_by = w.state.order_by ∧
    (pageNext br w).2.state.order_dir = w.state.order_dir ∧
    (pagePrev br w).2.log = w.log ++ [loadRequest (pagePrev br w).2.state] ∧
    (pageNext br w).2.log = w.log ++ [loadRequest (pageNext br w).2.state] := by
  have hp : (pagePrev br w).2.state =
      { w.state with offset := max 0 (w.state.offset - w.state.limit) } := by
    unfold pagePrev
    rw [load_state]
  have hn : (pageNext br w).2.state =
      { w.state with offset := w.state.offset + w.state.limit } := by
    unfold pageNext
    rw [load_state]
  refine ⟨hp, ?_, hn, ?_, ?_, ?_, ?_, ?_, ?_, ?_, ?_, ?_, ?_⟩
  · rw [hp]
    exact le_max_left _ _
  · rw [hp]
  · rw [hp]
  · rw [hp]
  · rw [hp]
  · rw [hn]
  · rw [hn]
  · rw [hn]
  · rw [hn]
  · rw [hp]
    unfold pagePrev
    rw [load_log]
  · rw [hn]
    unfold pageNext
    rw [load_log]

/-! ## Creating a task -/

theorem trim_eq_empty_iff (s : String) :
    trim s = "" ↔ ∀ c ∈ s.data, isTrimChar c = true := by
  unfold trim
  rw [String.ext_iff]
  show ((s.data.dropWhile isTrimChar).reverse.dropWhile isTrimChar).reverse = [] ↔ _
  rw [List.reverse_eq_nil_iff, List.dropWhile_eq_nil_iff]
  constructor
  · intro h
    by_cases hd : s.data.dropWhile isTrimChar = []
    · exact List.dropWhile_eq_nil_iff.mp hd
    · have h1 := List.head_dropWhile_not isTrimChar s.data hd
      have h2 := h _ (List.mem_reverse.mpr (List.head_mem hd))
      rw [h2] at h1
      exact absurd h1 (by decide)
  · intro h x hx
    rw [List.dropWhile_eq_nil_iff.mpr h] at hx
    simp at hx

theorem http_of_succeeds (req : Request) (w : World) (res : HttpResponse)
    (rest : List (Option HttpResponse)) (hp : w.pending = some res :: rest)
    (hs : res.succeeds = true) :
    ∃ p, http req w = (.ok p, { w with log := w.log ++ [req], pending := rest }) := by
  unfold HttpResponse.succeeds at hs
  simp only [Bool.and_eq_true, Bool.or_eq_true, decide_eq_true_eq] at hs
  obtain ⟨hok, h204⟩ := hs
  unfold http
  rw [hp]
  simp only [hok, Bool.not_true, Bool.false_eq_true, if_false, List.tail_cons]
  by_cases h : res.status = 204
  · exact ⟨.null, by simp [h]⟩
  · rcases h204 with h1 | h1
    · exact absurd h1 h
    · obtain ⟨p, hpj⟩ := Option.isSome_iff_exists.mp h1
      exact ⟨p, by simp [h, hpj]⟩

/-- C5: when the text field is empty or holds only white space, `onCreate`
issues no request, consumes no answer, shows the message
`El texto es obligatorio.`, and leaves the view state and the text field as
they were. -/
theorem onCreate_blank_text (br : Browser) (w : World)
    (h : ∀ c ∈ w.dom.textInput.data, isTrimChar c = true) :
    (onCreate br w).1 = .ok () ∧
    (onCreate br w).2.log = w.log ∧
    (onCreate br w).2.pending = w.pending ∧
    (onCreate br w).2.state = w.state ∧
    (onCreate br w).2.dom.textInput = w.dom.textInput ∧
    (onCreate br w).2.dom.createErrorText = "El texto es obligatorio." ∧
    (onCreate br w).2.dom.createErrorHidden = false := by
  have ht := (trim_eq_empty_iff w.dom.textInput).mpr h
  simp [onCreate, ht]

theorem onCreate_blank_text_witness :
    (∀ c ∈ (sampleWorld " \t\n" [some createdResponse]).dom.textInput.data,
      isTrimChar c = true) ∧
    (onCreate acceptingBrowser (sampleWorld " \t\n" [some createdResponse])).2.log = [] ∧
    (onCreate acceptingBrowser
      (sampleWorld " \t\n" [some createdResponse])).2.dom.createErrorHidden = false :=
  ⟨by decide,
    (onCreate_blank_text acceptingBrowser (sampleWorld " \t\n" [some createdResponse])
      (by decide)).2.1,
    (onCreate_blank_text acceptingBrowser (sampleWorld " \t\n" [some createdResponse])
      (by decide)).2.2.2.2.2.2⟩

/-- C6 (counterexample): the text ` ` (one space) is not empty and the service
answers every request successfully, yet `onCreate` issues no request. -/
theorem onCreate_space_no_request :
    (sampleWorld " " [some createdResponse, some emptyPageResponse]).dom.textInput ≠ "" ∧
    createdResponse.succeeds = true ∧ emptyPageResponse.succeeds = true ∧
    (onCreate acceptingBrowser
      (sampleWorld " " [some createdResponse, some emptyPageResponse])).2.log = [] := by
  decide

/-- C6 (amended): when the text field holds a character that is not white
space and the service answers the creation request successfully, `onCreate`
issues exactly one `POST /tasks` carrying the trimmed text and the chosen
status, then exactly one load, issued with offset 0 whatever the offset was;
the offset is 0 afterwards and the text field is cleared. -/
theorem onCreate_posts_then_reloads (br : Browser) (w : World) (res : HttpResponse)
    (rest : List (Option HttpResponse))
    (htext : ∃ c ∈ w.dom.textInput.data, isTrimChar c = false)
    (hp : w.pending = some res :: rest) (hs : res.succeeds = true) :
    (onCreate br w).2.log =
      w.log ++
        [{ method := .POST, path := "/tasks", query := [],
           body := some [("text", trim w.dom.textInput), ("status", w.dom.statusInput)] },
         { method := .GET, path := "/tasks",
           query := [("limit", toString w.state.limit), ("offset", "0")] ++
             (if w.state.status ≠ "" then [("status", w.state.status)] else []) ++
             [("order_by", w.state.order_by), ("order_dir", w.state.order_dir)],
           body := none }] ∧
    (onCreate br w).2.state = { w.state with offset := 0 } ∧
    (onCreate br w).2.dom.textInput = "" := by
  have ht : trim w.dom.textInput ≠ "" := by
    intro h0
    obtain ⟨c, hc, hcf⟩ := htext
    have := (trim_eq_empty_iff w.dom.textInput).mp h0 c hc
    rw [hcf] at this
    exact absurd this (by decide)
  obtain ⟨p, hhttp⟩ := http_of_succeeds
    (createRequest (trim w.dom.textInput) w.dom.statusInput)
    { w with dom := { w.dom with createErrorHidden := true } } res rest hp hs
  unfold onCreate
  simp only [ht, if_false, hhttp]
  refine ⟨?_, ?_, ?_⟩
  · rw [load_log, List.append_assoc]
    rfl
  · rw [load_state]
  · rw [load_textInput]

theorem onCreate_posts_then_reloads_witness :
    (∃ c ∈ (sampleWorld " buy milk " [some createdResponse]).dom.textInput.data,
      isTrimChar c = false) ∧
    (onCreate acceptingBrowser (sampleWorld " buy milk " [some createdResponse])).2.log =
      [{ method := .POST, path := "/tasks", query := [],
         body := some [("text", "buy milk"), ("status", "pending")] },
       { method := .GET, path := "/tasks",
         query := [("limit", "10"), ("offset", "0"), ("order_by", "created_at"),
           ("order_dir", "desc")], body := none }] :=
  ⟨⟨'b', by decide, by decide⟩,
    (onCreate_posts_then_reloads acceptingBrowser
      (sampleWorld " buy milk " [some createdResponse]) createdResponse []
      ⟨'b', by decide, by decide⟩ rfl (by decide)).1⟩

/-! ## Toggling a task -/

theorem http_log (req : Request) (w : World) : (http req w).2.log = w.log ++ [req] := by
  rw [http_world]

theorem http_state (req : Request) (w : World) : (http req w).2.state = w.state := by
  rw [http_world]

theorem toggle_state (br : Browser) (id : Int) (w : World) :
    (toggle br id w).2.state = w.state := by
  unfold toggle
  have h1 := http_state (fetchRequest br id) w
  unfold fetchRequest at h1
  split
  · next e w1 heq => rw [heq] at h1; exact h1
  · next w1 heq => rw [heq] at h1; exact h1
  · next t w1 _ heq =>
    rw [heq] at h1
    simp only at h1
    simp only
    split
    · next e w2 heq2 =>
      have h2 := http_state (updateRequest br id
        (if payloadStatus t = some "pending" then "done" else "pending")) w1
      unfold updateRequest at h2
      rw [heq2] at h2
      simp only at h2
      rw [h2, h1]
    · next u w2 heq2 =>
      have h2 := http_state (updateRequest br id
        (if payloadStatus t = some "pending" then "done" else "pending")) w1
      unfold updateRequest at h2
      rw [heq2] at h2
      simp only at h2
      rw [load_state, h2, h1]

theorem http_of_json (req : Request) (w : World) (res : HttpResponse)
    (rest : List (Option HttpResponse)) (p : Payload) (hp : w.pending = some res :: rest)
    (hok : res.ok = true) (h204 : res.status ≠ 204) (hj : res.json = some p) :
    http req w = (.ok p, { w with log := w.log ++ [req], pending := rest }) := by
  unfold http
  rw [hp]
  simp [hok, h204, hj]

theorem http_error_of_fails (req : Request) (w : World)
    (hn : ¬ ∃ res rest, w.pending = some res :: rest ∧ res.succeeds = true) :
    ∃ e, http req w =
      (.error e, { w with log := w.log ++ [req], pending := w.pending.tail }) := by
  have hw := http_world req w
  rcases h : http req w with ⟨r, w1⟩
  rw [h] at hw
  simp only at hw
  cases r with
  | error e => exact ⟨e, by rw [hw]⟩
  | ok p =>
    exfalso
    rcases hp : w.pending with _ | ⟨o, rest⟩
    · simp [http, hp] at h
    · cases o with
      | none => simp [http, hp] at h
      | some res =>
        have hs : ¬ res.succeeds = true := fun hs => hn ⟨res, rest, hp, hs⟩
        simp only [HttpResponse.succeeds, Bool.and_eq_true, Bool.or_eq_true,
          decide_eq_true_eq, not_and, not_or] at hs
        by_cases hok : res.ok = true
        · obtain ⟨h204, hj⟩ := hs hok
          have hnone : res.json = none := by
            cases hj2 : res.json with
            | none => rfl
            | some v => rw [hj2] at hj; simp at hj
          simp [http, hp, hok, h204, hnone] at h
        · simp [http, hp, hok] at h

theorem http_cases (req : Request) (w : World) :
    (∃ e, http req w = (.error e, { w with log := w.log ++ [req], pending := w.pending.tail }) ∧
      ¬ ∃ res rest, w.pending = some res :: rest ∧ res.succeeds = true) ∨
    (∃ p, http req w = (.ok p, { w with log := w.log ++ [req], pending := w.pending.tail }) ∧
      ∃ res rest, w.pending = some res :: rest ∧ res.succeeds = true) := by
  by_cases hs : ∃ res rest, w.pending = some res :: rest ∧ res.succeeds = true
  · right
    obtain ⟨res, rest, hp, hsucc⟩ := hs
    obtain ⟨p, h⟩ := http_of_succeeds req w res rest hp hsucc
    refine ⟨p, ?_, res, rest, hp, hsucc⟩
    rw [h, hp]
    rfl
  · left
    obtain ⟨e, h⟩ := http_error_of_fails req w hs
    exact ⟨e, h, hs⟩

theorem onListClick_toggle_world (br : Browser) (id : Int) (w : World) :
    (onListClick br (some ⟨"toggle", id⟩) w).2 = (toggle br id w).2 := by
  have hd : ("toggle" = "delete") = False := by decide
  simp only [onListClick, if_true, hd, if_false]
  rcases toggle br id w with ⟨r, w1⟩
  cases r <;> rfl

theorem onListClick_delete_eq (br : Browser) (id : Int) (w : World) :
    onListClick br (some ⟨"delete", id⟩) w = delete br id w := by
  have hd : ("delete" = "toggle") = False := by decide
  simp only [onListClick, if_true, hd, if_false]

theorem toggle_log (br : Browser) (id : Int) (w : World) (res : HttpResponse) (t : Task)
    (rest : List (Option HttpResponse)) (hp : w.pending = some res :: rest)
    (hok : res.ok = true) (h204 : res.status ≠ 204) (hj : res.json = some (.task t)) :
    ∃ tail, (toggle br id w).2.log =
        w.log ++ [fetchRequest br id,
          updateRequest br id (if t.status = "pending" then "done" else "pending")] ++ tail ∧
      ((∃ res2 rest2, rest = some res2 :: rest2 ∧ res2.succeeds = true) →
        tail = [loadRequest w.state]) ∧
      ((¬ ∃ res2 rest2, rest = some res2 :: rest2 ∧ res2.succeeds = true) → tail = []) := by
  have h1 := http_of_json (fetchRequest br id) w res rest (.task t) hp hok h204 hj
  unfold fetchRequest at h1
  simp only [toggle, h1, payloadStatus, Option.some.injEq]
  rcases http_cases (updateRequest br id (if t.status = "pending" then "done" else "pending"))
    { w with log := w.log ++ [fetchRequest br id], pending := rest } with
    ⟨e, h2, hn⟩ | ⟨p, h2, hy⟩
  · unfold updateRequest fetchRequest at h2
    simp only [h2]
    refine ⟨[], ?_, ?_, fun _ => rfl⟩
    · simp [fetchRequest, updateRequest]
    · intro hex
      exact absurd hex hn
  · unfold updateRequest fetchRequest at h2
    simp only [h2]
    refine ⟨[loadRequest w.state], ?_, fun _ => rfl, ?_⟩
    · rw [load_log]
      simp [fetchRequest, updateRequest]
    · intro hex
      exact absurd hy hex

/-- C7 (counterexample): the fetch returns a pending task and the update
request is answered with status 500; the fetch and the update are issued and no
load follows. -/
theorem onListClick_toggle_update_fails :
    (onListClick acceptingBrowser (some ⟨"toggle", 7⟩)
      (pagedWorld 10 0 [some (taskResponse 7 "pending"), some serverErrorResponse,
        some emptyPageResponse])).2.log =
      [{ method := .GET, path := "/tasks/7", query := [], body := none },
       { method := .PUT, path := "/tasks/7", query := [], body := some [("status", "done")] }] := by
  decide

/-- C7 (amended): a click on the toggle button of task `id` never changes the
view state; when the fetch `GET /tasks/{id}` returns a task, exactly one
`PUT /tasks/{id}` is issued right after it, with status `done` if the fetched
status is `pending` and `pending` otherwise (so for `done`); when the update
request succeeds exactly one load follows and nothing else, and when it fails
nothing follows. -/
theorem onListClick_toggle (br : Browser) (id : Int) (w : World) :
    (onListClick br (some ⟨"toggle", id⟩) w).2.state = w.state ∧
    ∀ (res : HttpResponse) (t : Task) (rest : List (Option HttpResponse)),
      w.pending = some res :: rest → res.ok = true → res.status ≠ 204 →
      res.json = some (.task t) →
      ∃ tail, (onListClick br (some ⟨"toggle", id⟩) w).2.log =
          w.log ++
            [{ method := .GET, path := "/tasks/" ++
              (if -1000000000000000000000 < id ∧ id < 1000000000000000000000 then toString id
               else br.exponential id), query := [], body := none },
             { method := .PUT, path := "/tasks/" ++
              (if -1000000000000000000000 < id ∧ id < 1000000000000000000000 then toString id
               else br.exponential id), query := [],
               body := some [("status", if t.status = "pending" then "done" else "pending")] }]
            ++ tail ∧
        ((∃ res2 rest2, rest = some res2 :: rest2 ∧ res2.succeeds = true) →
          tail = [{ method := .GET, path := "/tasks", query := [("limit", toString w.state.limit), ("offset", toString w.state.offset)] ++
              (if w.state.status ≠ "" then [("status", w.state.status)] else []) ++
              [("order_by", w.state.order_by), ("order_dir", w.state.order_dir)], body := none }]) ∧
        ((¬ ∃ res2 rest2, rest = some res2 :: rest2 ∧ res2.succeeds = true) → tail = []) := by
  rw [onListClick_toggle_world]
  constructor
  · exact toggle_state br id w
  · intro res t rest hp hok h204 hj
    exact toggle_log br id w res t rest hp hok h204 hj

theorem onListClick_toggle_witness :
    (onListClick acceptingBrowser (some ⟨"toggle", 7⟩)
      (pagedWorld 10 20 [some (taskResponse 7 "done"), some (taskResponse 7 "pending"),
        some emptyPageResponse])).2.state = (pagedWorld 10 20 []).state ∧
    ∃ tail, (onListClick acceptingBrowser (some ⟨"toggle", 7⟩)
      (pagedWorld 10 20 [some (taskResponse 7 "done"), some (taskResponse 7 "pending"),
        some emptyPageResponse])).2.log =
        [] ++
          [{ method := .GET, path := "/tasks/7", query := [], body := none },
           { method := .PUT, path := "/tasks/7", query := [],
             body := some [("status", "pending")] }] ++ tail ∧
      ((∃ res2 rest2, [some (taskResponse 7 "pending"), some emptyPageResponse] =
          some res2 :: rest2 ∧ res2.succeeds = true) →
        tail = [{ method := .GET, path := "/tasks",
                  query := [("limit", "10"), ("offset", "20"), ("order_by", "created_at"),
                    ("order_dir", "desc")], body := none }]) ∧
      ((¬ ∃ res2 rest2, [some (taskResponse 7 "pending"), some emptyPageResponse] =
          some res2 :: rest2 ∧ res2.succeeds = true) → tail = []) :=
  ⟨(onListClick_toggle acceptingBrowser 7 (pagedWorld 10 20 [some (taskResponse 7 "done"),
      some (taskResponse 7 "pending"), some emptyPageResponse])).1,
    (onListClick_toggle acceptingBrowser 7 (pagedWorld 10 20 [some (taskResponse 7 "done"),
      some (taskResponse 7 "pending"), some emptyPageResponse])).2
      (taskResponse 7 "done") ⟨7, "a", "done", none, "2024-01-01"⟩
      [some (taskResponse 7 "pending"), some emptyPageResponse] rfl (by decide) (by decide) rfl⟩

/-! ## Deleting a task -/

theorem delete_declined (br : Browser) (id : Int) (w : World)
    (hc : br.confirm (confirmMessage br id) = false) : delete br id w = (.ok (), w) := by
  unfold confirmMessage at hc
  simp [delete, hc]

theorem delete_confirmed (br : Browser) (id : Int) (w : World)
    (hc : br.confirm (confirmMessage br id) = true) :
    (∃ e, delete br id w =
        (.error e, { w with log := w.log ++ [deleteRequest br id], pending := w.pending.tail }) ∧
      ¬ ∃ res rest, w.pending = some res :: rest ∧ res.succeeds = true) ∨
    (delete br id w =
      load br
        { state :=
            if w.state.offset > 0 ∧ br.childCount w.dom.listHtml = 1 then
              { w.state with offset := max 0 (w.state.offset - w.state.limit) }
            else w.state
          dom := w.dom
          pending := w.pending.tail
          log := w.log ++ [deleteRequest br id] } ∧
      ∃ res rest, w.pending = some res :: rest ∧ res.succeeds = true) := by
  unfold confirmMessage at hc
  rcases http_cases (deleteRequest br id) w with ⟨e, h, hn⟩ | ⟨p, h, hy⟩
  · left
    refine ⟨e, ?_, hn⟩
    unfold deleteRequest at h
    simp [delete, hc, h, deleteRequest]
  · right
    refine ⟨?_, hy⟩
    unfold deleteRequest at h
    simp only [delete, hc, Bool.not_true, Bool.false_eq_true, if_false, h, deleteRequest]
    congr 1
    split <;> rfl

theorem delete_log (br : Browser) (id : Int) (w : World)
    (hc : br.confirm (confirmMessage br id) = true) :
    ∃ tail, (delete br id w).2.log = w.log ++ [deleteRequest br id] ++ tail ∧
      (∀ q ∈ tail, q.method ≠ Method.DELETE) ∧
      ((∃ res rest, w.pending = some res :: rest ∧ res.succeeds = true) →
        ∃ query, tail = [{ method := .GET, path := "/tasks", query := query, body := none }]) ∧
      ((¬ ∃ res rest, w.pending = some res :: rest ∧ res.succeeds = true) →
        tail = [] ∧ (delete br id w).2.state = w.state) := by
  rcases delete_confirmed br id w hc with ⟨e, h, hn⟩ | ⟨h, hy⟩
  · rw [h]
    exact ⟨[], by simp, by simp, fun hex => absurd hex hn, fun _ => ⟨rfl, rfl⟩⟩
  · rw [h, load_log]
    exact ⟨[loadRequest _], rfl, by simp [loadRequest], fun _ => ⟨_, rfl⟩,
      fun hex => absurd hy hex⟩

/-- C8: a click on the delete button of task `id` whose confirmation is
declined leaves the whole world as it was: no request is issued and the view
state is unchanged.  When the confirmation is accepted the first request issued
is `DELETE /tasks/{id}`, no other DELETE request is issued, and what follows it
is one `GET /tasks` (the reload) when the deletion succeeds and nothing when it
fails. -/
theorem onListClick_delete_confirmation (br : Browser) (id : Int) (w : World) :
    (br.confirm ("¿Eliminar la tarea #" ++
        (if -1000000000000000000000 < id ∧ id < 1000000000000000000000 then toString id
         else br.exponential id) ++ "?") = false →
      onListClick br (some ⟨"delete", id⟩) w = (.ok (), w)) ∧
    (br.confirm ("¿Eliminar la tarea #" ++
        (if -1000000000000000000000 < id ∧ id < 1000000000000000000000 then toString id
         else br.exponential id) ++ "?") = true →
      ∃ tail, (onListClick br (some ⟨"delete", id⟩) w).2.log =
          w.log ++
            [{ method := .DELETE, path := "/tasks/" ++
              (if -1000000000000000000000 < id ∧ id < 1000000000000000000000 then toString id
               else br.exponential id), query := [], body := none }] ++ tail ∧
        (∀ q ∈ tail, q.method ≠ Method.DELETE) ∧
        ((∃ res rest, w.pending = some res :: rest ∧ res.succeeds = true) →
          ∃ query,
            tail = [{ method := .GET, path := "/tasks", query := query, body := none }]) ∧
        ((¬ ∃ res rest, w.pending = some res :: rest ∧ res.succeeds = true) →
          tail = [] ∧ (onListClick br (some ⟨"delete", id⟩) w).2.state = w.state)) := by
  rw [onListClick_delete_eq]
  constructor
  · exact delete_declined br id w
  · intro hc
    exact delete_log br id w hc

theorem onListClick_delete_confirmation_witness :
    (decliningBrowser.confirm "¿Eliminar la tarea #3?" = false ∧
      onListClick decliningBrowser (some ⟨"delete", 3⟩)
          (pagedWorld 10 10 [some noContentResponse, some emptyPageResponse]) =
        (.ok (), pagedWorld 10 10 [some noContentResponse, some emptyPageResponse])) ∧
    (acceptingBrowser.confirm "¿Eliminar la tarea #3?" = true ∧
      ∃ tail, (onListClick acceptingBrowser (some ⟨"delete", 3⟩)
          (pagedWorld 10 10 [some noContentResponse, some emptyPageResponse])).2.log =
          [] ++ [{ method := .DELETE, path := "/tasks/3", query := [], body := none }] ++ tail ∧
        (∀ q ∈ tail, q.method ≠ Method.DELETE) ∧
        ((∃ res rest, [some noContentResponse, some emptyPageResponse] = some res :: rest ∧
            res.succeeds = true) →
          ∃ query,
            tail = [{ method := .GET, path := "/tasks", query := query, body := none }]) ∧
        ((¬ ∃ res rest, [some noContentResponse, some emptyPageResponse] = some res :: rest ∧
            res.succeeds = true) →
          tail = [] ∧
          (onListClick acceptingBrowser (some ⟨"delete", 3⟩)
            (pagedWorld 10 10 [some noContentResponse, some emptyPageResponse])).2.state =
            (pagedWorld 10 10 [some noContentResponse, some emptyPageResponse]).state)) :=
  ⟨⟨rfl, (onListClick_delete_confirmation decliningBrowser 3
      (pagedWorld 10 10 [some noContentResponse, some emptyPageResponse])).1 rfl⟩,
    ⟨rfl, (onListClick_delete_confirmation acceptingBrowser 3
      (pagedWorld 10 10 [some noContentResponse, some emptyPageResponse])).2 rfl⟩⟩

/-! ## Reachable view states -/

theorem onCreate_state (br : Browser) (w : World) :
    (onCreate br w).2.state = w.state ∨
    (onCreate br w).2.state = { w.state with offset := 0 } := by
  unfold onCreate
  simp only
  split
  · left; rfl
  · rcases http_cases (createRequest (trim w.dom.textInput) w.dom.statusInput)
      { w with dom := { w.dom with createErrorHidden := true } } with ⟨e, h, _⟩ | ⟨p, h⟩
    · left
      simp only [h]
    · right
      simp only [h]
      rw [load_state]

theorem delete_state (br : Browser) (id : Int) (w : World) :
    (delete br id w).2.state = w.state ∨
    (delete br id w).2.state =
      { w.state with offset := max 0 (w.state.offset - w.state.limit) } := by
  cases hc : br.confirm (confirmMessage br id) with
  | false =>
    left
    rw [delete_declined br id w hc]
  | true =>
    rcases delete_confirmed br id w hc with ⟨e, h, _⟩ | ⟨h, _⟩
    · left
      rw [h]
    · rw [h, load_state]
      simp only
      split
      · right; rfl
      · left; rfl

theorem onListClick_state (br : Browser) (btn : Option Button) (w : World) :
    (onListClick br btn w).2.state = w.state ∨
    (onListClick br btn w).2.state =
      { w.state with offset := max 0 (w.state.offset - w.state.limit) } := by
  cases btn with
  | none => left; rfl
  | some b =>
    obtain ⟨action, id⟩ := b
    by_cases ht : action = "toggle"
    · subst ht
      left
      rw [onListClick_toggle_world, toggle_state]
    · by_cases hd : action = "delete"
      · subst hd
        rw [onListClick_delete_eq]
        exact delete_state br id w
      · left
        simp [onListClick, ht, hd]

theorem run_state (br : Browser) (a : Action) (w : World) :
    (a.run br w).2.state = w.state ∨
    (a.run br w).2.state = { w.state with offset := 0 } ∨
    (a.run br w).2.state = { w.state with offset := max 0 (w.state.offset - w.state.limit) } ∨
    (a.run br w).2.state = { w.state with offset := w.state.offset + w.state.limit } ∨
    (∃ v, (a.run br w).2.state = { w.state with status := v, offset := 0 }) ∨
    (∃ v, (a.run br w).2.state = { w.state with order_by := v, offset := 0 }) ∨
    (∃ v, (a.run br w).2.state = { w.state with order_dir := v, offset := 0 }) := by
  cases a with
  | pagePrev =>
    right; right; left
    simp only [Action.run, pagePrev]
    rw [load_state]
  | pageNext =>
    right; right; right; left
    simp only [Action.run, pageNext]
    rw [load_state]
  | setFilter v =>
    right; right; right; right; left
    refine ⟨v, ?_⟩
    simp only [Action.run, setFilter]
    rw [load_state]
  | setOrderBy v =>
    right; right; right; right; right; left
    refine ⟨v, ?_⟩
    simp only [Action.run, setOrderBy]
    rw [load_state]
  | setOrderDir v =>
    right; right; right; right; right; right
    refine ⟨v, ?_⟩
    simp only [Action.run, setOrderDir]
    rw [load_state]
  | create =>
    rcases onCreate_state br w with h | h
    · left; exact h
    · right; left; exact h
  | listClick btn =>
    rcases onListClick_state br btn w with h | h
    · left; exact h
    · right; right; left; exact h

theorem reachable_aligned (st : ViewState) (h : Reachable st) :
    st.limit = 10 ∧ ∃ k : Nat, st.offset = (k : Int) * 10 := by
  induction h with
  | init => exact ⟨rfl, 0, rfl⟩
  | step br a w _ ih =>
    obtain ⟨hl, k, hk⟩ := ih
    rcases run_state br a w with h | h | h | h | ⟨v, h⟩ | ⟨v, h⟩ | ⟨v, h⟩
    · rw [h]; exact ⟨hl, k, hk⟩
    · rw [h]; exact ⟨hl, 0, rfl⟩
    · rw [h]
      refine ⟨hl, k - 1, ?_⟩
      simp only [hl, hk]
      cases k with
      | zero => simp
      | succ n =>
        simp only [Nat.add_sub_cancel]
        push_cast
        rw [max_eq_right (by omega)]
        ring
    · rw [h]
      refine ⟨hl, k + 1, ?_⟩
      simp only [hl, hk]
      push_cast
      ring
    · rw [h]; exact ⟨hl, 0, rfl⟩
    · rw [h]; exact ⟨hl, 0, rfl⟩
    · rw [h]; exact ⟨hl, 0, rfl⟩

/-- C10: in every view state reachable from the initial one by page, filter,
order, create and list-click (toggle, delete) events, the limit is 10 and the
offset is a non-negative multiple of the limit; hence a positive reachable
offset is at least the limit and `max(0, offset - limit)` is exactly
`offset - limit`. -/
theorem reachable_limit_offset (st : ViewState) (h : Reachable st) :
    st.limit = 10 ∧ 0 ≤ st.offset ∧ (∃ k : Nat, st.offset = (k : Int) * st.limit) ∧
    (0 < st.offset →
      st.limit ≤ st.offset ∧ max 0 (st.offset - st.limit) = st.offset - st.limit) := by
  obtain ⟨hl, k, hk⟩ := reachable_aligned st h
  refine ⟨hl, by omega, ⟨k, by rw [hl]; exact hk⟩, ?_⟩
  intro hpos
  have : st.limit ≤ st.offset := by omega
  exact ⟨this, max_eq_right (by omega)⟩

theorem reachable_limit_offset_witness :
    Reachable (Action.pageNext.run acceptingBrowser (pagedWorld 10 0 [])).2.state ∧
    (Action.pageNext.run acceptingBrowser (pagedWorld 10 0 [])).2.state.offset = 10 ∧
    (Action.pageNext.run acceptingBrowser (pagedWorld 10 0 [])).2.state.limit = 10 :=
  ⟨Reachable.step acceptingBrowser Action.pageNext (pagedWorld 10 0 []) Reachable.init,
    by decide,
    (reachable_limit_offset _
      (Reachable.step acceptingBrowser Action.pageNext (pagedWorld 10 0 []) Reachable.init)).1⟩

/-! ## Deleting the only item of a page -/

theorem delete_offset_of_childCount (br : Browser) (id : Int) (w : World)
    (hc : br.confirm (confirmMessage br id) = true)
    (hy : ∃ res rest, w.pending = some res :: rest ∧ res.succeeds = true) :
    (onListClick br (some ⟨"delete", id⟩) w).2.log =
      w.log ++ [deleteRequest br id,
        loadRequest (onListClick br (some ⟨"delete", id⟩) w).2.state] ∧
    (0 < w.state.offset → br.childCount w.dom.listHtml = 1 →
      (onListClick br (some ⟨"delete", id⟩) w).2.state =
        { w.state with offset := max 0 (w.state.offset - w.state.limit) }) ∧
    (0 < w.state.offset → br.childCount w.dom.listHtml = 1 → Reachable w.state →
      (onListClick br (some ⟨"delete", id⟩) w).2.state.offset =
        w.state.offset - w.state.limit) ∧
    (¬ (0 < w.state.offset ∧ br.childCount w.dom.listHtml = 1) →
      (onListClick br (some ⟨"delete", id⟩) w).2.state = w.state) := by
  rw [onListClick_delete_eq]
  have hd : delete br id w =
      load br
        { state :=
            if w.state.offset > 0 ∧ br.childCount w.dom.listHtml = 1 then
              { w.state with offset := max 0 (w.state.offset - w.state.limit) }
            else w.state
          dom := w.dom
          pending := w.pending.tail
          log := w.log ++ [deleteRequest br id] } := by
    rcases delete_confirmed br id w hc with ⟨e, _, hn⟩ | ⟨h, _⟩
    · exact absurd hy hn
    · exact h
  have hclamp : 0 < w.state.offset → br.childCount w.dom.listHtml = 1 →
      (delete br id w).2.state =
        { w.state with offset := max 0 (w.state.offset - w.state.limit) } := by
    intro h1 h2
    rw [hd, load_state]
    simp [h1, h2]
  refine ⟨?_, hclamp, ?_, ?_⟩
  · rw [hd, load_log, load_state]
    simp
  · intro h1 h2 h3
    obtain ⟨hl, k, hk⟩ := reachable_aligned w.state h3
    rw [hclamp h1 h2]
    exact max_eq_right (by omega)
  · intro hn
    rw [hd, load_state]
    simp only [gt_iff_lt, hn, if_false]

/-- C3 (the code at the failing input): limit 10, offset 10, and the rendered
page holds the single task 3, whose only tag is `<li>`.  The tag is written to
the markup as it is, the list gets two element children, and the confirmed and
successful delete reloads with offset 10, not with offset 0.  With the tag
`misc` in its place the list has one child and the reload uses offset 0. -/
theorem onListClick_delete_markup_tag :
    (lastPageWorld "<li>").state.limit = 10 ∧
    (lastPageWorld "<li>").state.offset = 10 ∧
    acceptingBrowser.childCount (lastPageWorld "<li>").dom.listHtml = 2 ∧
    (onListClick acceptingBrowser (some ⟨"delete", 3⟩)
      (lastPageWorld "<li>")).2.state.offset = 10 ∧
    (onListClick acceptingBrowser (some ⟨"delete", 3⟩) (lastPageWorld "<li>")).2.log =
      [{ method := .GET, path := "/tasks",
         query := [("limit", "10"), ("offset", "10"), ("order_by", "created_at"),
           ("order_dir", "desc")], body := none },
       { method := .DELETE, path := "/tasks/3", query := [], body := none },
       { method := .GET, path := "/tasks",
         query := [("limit", "10"), ("offset", "10"), ("order_by", "created_at"),
           ("order_dir", "desc")], body := none }] ∧
    acceptingBrowser.childCount (lastPageWorld "misc").dom.listHtml = 1 ∧
    (onListClick acceptingBrowser (some ⟨"delete", 3⟩)
      (lastPageWorld "misc")).2.state.offset = 0 := by
  decide!

/-! ## Escaping -/

theorem escapeChar_cases (c : Char) :
    (c = '&' ∧ escapeChar c = "&amp;") ∨ (c = '<' ∧ escapeChar c = "&lt;") ∨
    (c = '>' ∧ escapeChar c = "&gt;") ∨ (c = '"' ∧ escapeChar c = "&quot;") ∨
    (c = '\'' ∧ escapeChar c = "&#39;") ∨
    (c ∉ specialChars ∧ escapeChar c = String.singleton c) := by
  unfold escapeChar
  by_cases h1 : c = '&'
  · left; simp [h1]
  by_cases h2 : c = '<'
  · right; left; simp [h2]
  by_cases h3 : c = '>'
  · right; right; left; simp [h3]
  by_cases h4 : c = '"'
  · right; right; right; left; simp [h4]
  by_cases h5 : c = '\''
  · right; right; right; right; left; simp [h5]
  right; right; right; right; right
  simp [h1, h2, h3, h4, h5, specialChars]

theorem escapeChar_no_markup (c x : Char) (hx : x ∈ (escapeChar c).data) :
    x ≠ '<' ∧ x ≠ '>' ∧ x ≠ '"' ∧ x ≠ '\'' := by
  rcases escapeChar_cases c with ⟨_, h⟩ | ⟨_, h⟩ | ⟨_, h⟩ | ⟨_, h⟩ | ⟨_, h⟩ | ⟨hc, h⟩
  all_goals rw [h] at hx
  · have : ∀ y ∈ ("&amp;" : String).data, y ≠ '<' ∧ y ≠ '>' ∧ y ≠ '"' ∧ y ≠ '\'' := by decide
    exact this x hx
  · have : ∀ y ∈ ("&lt;" : String).data, y ≠ '<' ∧ y ≠ '>' ∧ y ≠ '"' ∧ y ≠ '\'' := by decide
    exact this x hx
  · have : ∀ y ∈ ("&gt;" : String).data, y ≠ '<' ∧ y ≠ '>' ∧ y ≠ '"' ∧ y ≠ '\'' := by decide
    exact this x hx
  · have : ∀ y ∈ ("&quot;" : String).data, y ≠ '<' ∧ y ≠ '>' ∧ y ≠ '"' ∧ y ≠ '\'' := by decide
    exact this x hx
  · have : ∀ y ∈ ("&#39;" : String).data, y ≠ '<' ∧ y ≠ '>' ∧ y ≠ '"' ∧ y ≠ '\'' := by decide
    exact this x hx
  · have hd : (String.singleton c).data = [c] := rfl
    rw [hd, List.mem_singleton] at hx
    subst hx
    simp only [specialChars, List.mem_cons, List.mem_singleton, List.not_mem_nil, or_false,
      not_or] at hc
    exact ⟨hc.2.1, hc.2.2.1, hc.2.2.2.1, hc.2.2.2.2⟩

theorem escapeChar_amp_tail (c : Char) : '&' ∉ (escapeChar c).data.tail := by
  rcases escapeChar_cases c with ⟨_, h⟩ | ⟨_, h⟩ | ⟨_, h⟩ | ⟨_, h⟩ | ⟨_, h⟩ | ⟨_, h⟩
  all_goals rw [h]
  all_goals first
    | decide
    | (intro hm; have hd : (String.singleton c).data.tail = [] := rfl; rw [hd] at hm; simp at hm)

theorem escapeChar_amp_head (c : Char) (rest : List Char)
    (h : (escapeChar c).data = '&' :: rest) : escapeChar c ∈ entities := by
  rcases escapeChar_cases c with ⟨_, e⟩ | ⟨_, e⟩ | ⟨_, e⟩ | ⟨_, e⟩ | ⟨_, e⟩ | ⟨hc, e⟩
  · rw [e]; decide
  · rw [e]; decide
  · rw [e]; decide
  · rw [e]; decide
  · rw [e]; decide
  · rw [e] at h
    have hd : (String.singleton c).data = [c] := rfl
    rw [hd] at h
    have hc2 : c = '&' := by
      injection h
    rw [hc2] at hc
    exact absurd (by decide) hc

theorem amp_in_flatMap (l a b : List Char)
    (h : l.flatMap (fun c => (escapeChar c).data) = a ++ '&' :: b) :
    ∃ e ∈ entities, ∃ r, '&' :: b = e.data ++ r := by
  induction l generalizing a with
  | nil =>
    simp at h
  | cons c cs ih =>
    rw [List.flatMap_cons, List.append_eq_append_iff] at h
    rcases h with ⟨a1, _, h2⟩ | ⟨c1, h1, h2⟩
    · exact ih a1 h2
    · cases c1 with
      | nil =>
        rw [List.nil_append] at h2
        exact ih [] h2.symm
      | cons x xs =>
        rw [List.cons_append] at h2
        injection h2 with hx hb
        subst hx
        cases a with
        | nil =>
          rw [List.nil_append] at h1
          refine ⟨escapeChar c, escapeChar_amp_head c xs h1,
            cs.flatMap (fun c => (escapeChar c).data), ?_⟩
          rw [h1, hb]
          rfl
        | cons y ys =>
          have ht := escapeChar_amp_tail c
          rw [h1] at ht
          simp at ht

/-- C9: for every string `s`, `escapeHtml s` holds none of `<`, `>`, `"`, `'`;
every `&` in it starts one of the five entities; it is `s` with each of the
five special characters replaced by its entity and every other character kept
in place; and a string without special characters is returned unchanged. -/
theorem escapeHtml_spec (s : String) :
    (∀ c ∈ (escapeHtml s).data, c ≠ '<' ∧ c ≠ '>' ∧ c ≠ '"' ∧ c ≠ '\'') ∧
    (∀ a b, (escapeHtml s).data = a ++ '&' :: b →
      ∃ e ∈ entities, ∃ r, '&' :: b = e.data ++ r) ∧
    (escapeHtml s).data = s.data.flatMap (fun c =>
      if c = '&' then "&amp;".data else if c = '<' then "&lt;".data
      else if c = '>' then "&gt;".data else if c = '"' then "&quot;".data
      else if c = '\'' then "&#39;".data else [c]) ∧
    ((∀ c ∈ s.data, c ∉ specialChars) → escapeHtml s = s) := by
  refine ⟨?_, ?_, ?_, ?_⟩
  · intro x hx
    unfold escapeHtml at hx
    obtain ⟨c, _, hc⟩ := List.mem_flatMap.mp hx
    exact escapeChar_no_markup c x hc
  · intro a b h
    exact amp_in_flatMap s.data a b h
  · unfold escapeHtml
    show s.data.flatMap _ = s.data.flatMap _
    congr 1
    funext c
    unfold escapeChar
    split_ifs <;> rfl
  · intro h
    rw [String.ext_iff]
    show s.data.flatMap (fun c => (escapeChar c).data) = s.data
    have key : ∀ l : List Char, (∀ c ∈ l, c ∉ specialChars) →
        l.flatMap (fun c => (escapeChar c).data) = l := by
      intro l
      induction l with
      | nil => intro _; rfl
      | cons c cs ih =>
        intro hl
        rw [List.flatMap_cons, ih (fun x hx => hl x (List.mem_cons_of_mem _ hx))]
        have hc := hl c (List.mem_cons_self _ _)
        rcases escapeChar_cases c with ⟨e, _⟩ | ⟨e, _⟩ | ⟨e, _⟩ | ⟨e, _⟩ | ⟨e, _⟩ | ⟨_, e⟩
        · rw [e] at hc; exact absurd (by decide) hc
        · rw [e] at hc; exact absurd (by decide) hc
        · rw [e] at hc; exact absurd (by decide) hc
        · rw [e] at hc; exact absurd (by decide) hc
        · rw [e] at hc; exact absurd (by decide) hc
        · rw [e]; rfl
    exact key s.data h

theorem escapeHtml_spec_witness :
    (∀ c ∈ ("plain text" : String).data, c ∉ specialChars) ∧
    escapeHtml "plain text" = "plain text" ∧
    escapeHtml "<a href=\"x\">Tom & 'Jerry'</a>" =
      "&lt;a href=&quot;x&quot;&gt;Tom &amp; &#39;Jerry&#39;&lt;/a&gt;" :=
  ⟨by decide, (escapeHtml_spec "plain text").2.2.2 (by decide), by decide⟩

end TaskList
